import Mathlib

set_option maxRecDepth 100000

/-!
# Verification of the cogito-suite document ingestion and retrieval pipeline

This file gives a shallow embedding, in Lean 4, of the algorithmic core of the
repository: the SQL similarity-search function `match_documents`
(supabase/migrations/20250815174017), and the TypeScript edge functions
`process-pdf`, `generate-response` and `reset-knowledge`
(supabase/functions/*/index.ts).

Conventions of the embedding:

* JavaScript strings are modelled as `List Char` (`Str` below); lengths are
  counted in characters, which agrees with the UTF-16 `length` used by the
  source on the basic-plane text the pipeline manipulates.
* Floating-point ratios and thresholds of the source are modelled over `ℚ`.
  Every threshold comparison in the source compares a quotient of small
  counts against a short decimal constant, where the rational and the
  double-precision comparison agree.
* `fetch`/database calls are modelled as explicit oracle parameters
  (functions returning `Except` or sum types); thrown JS exceptions become
  `Except.error`, and database tables become lists of row structures that
  are threaded through the handlers as explicit state.
* Regex scans of the source are hand-compiled to character-list scanners
  following ECMAScript leftmost-match semantics for each concrete pattern.
-/

/-- Characters of a JavaScript string, one entry per UTF-16 code unit of the
basic-plane text handled by the pipeline. -/
abbrev Str := List Char

instance {ε α : Type} [DecidableEq ε] [DecidableEq α] : DecidableEq (Except ε α) :=
  fun a b =>
    match a, b with
    | .ok x, .ok y =>
      if h : x = y then isTrue (by rw [h]) else isFalse (by simp [h])
    | .error x, .error y =>
      if h : x = y then isTrue (by rw [h]) else isFalse (by simp [h])
    | .ok _, .error _ => isFalse (by simp)
    | .error _, .ok _ => isFalse (by simp)

/-- The `\s` character class of ECMAScript regular expressions and the
whitespace set removed by `String.prototype.trim`, restricted to the code
points the pipeline can encounter. -/
def jsWhitespace (c : Char) : Bool :=
  c = ' ' || c = '\t' || c = '\n' || c = '\r' ||
  c = '\x0b' || c = '\x0c' || c = ' ' || c = '﻿' ||
  c = ' ' || c = ' '

/-- `String.prototype.trim`: strip `jsWhitespace` from both ends. -/
def jsTrim (s : Str) : Str :=
  (((s.dropWhile jsWhitespace).reverse).dropWhile jsWhitespace).reverse

/-- The `\d` regex class. -/
def isDigitCh (c : Char) : Bool := '0' ≤ c && c ≤ '9'

/-- The `[A-Za-z]` regex class. -/
def isAsciiLetter (c : Char) : Bool :=
  ('A' ≤ c && c ≤ 'Z') || ('a' ≤ c && c ≤ 'z')

/-- The `[aeiouAEIOU]` regex class. -/
def isVowel (c : Char) : Bool :=
  c = 'a' || c = 'e' || c = 'i' || c = 'o' || c = 'u' ||
  c = 'A' || c = 'E' || c = 'I' || c = 'O' || c = 'U'

/-- The `\w` regex class: ASCII letters, digits and underscore. -/
def isWordChar (c : Char) : Bool :=
  isAsciiLetter c || isDigitCh c || c = '_'

/-- ASCII lower-casing, for the case-insensitive (`/i`) regex tests. -/
def lowerCh (c : Char) : Char :=
  if 'A' ≤ c && c ≤ 'Z' then Char.ofNat (c.toNat + 32) else c

/-! ## Knowledge store: `match_documents`
    (supabase/migrations/20250815174017_…sql, lines 55–83)

The SQL function filters `document_chunks` by owner and similarity, orders by
the pgvector cosine-distance operator `<=>` ascending, and limits the result.
The cosine-distance operator itself is external to the repository; the
embedding takes it as an explicit parameter `dist`, and similarity is
`1 - dist embedding query`, exactly as the SQL computes
`1 - (document_chunks.embedding <=> query_embedding)`. -/

/-- A row of the `document_chunks` table, restricted to the columns
`match_documents` reads: primary key, owning assistant and content together
with the embedding vector. -/
structure DocumentChunk where
  id : Nat
  custom_gpt_id : Nat
  content : Str
  embedding : List ℚ
deriving DecidableEq, Repr

/-- A row of the result table of `match_documents`: `(id, content, similarity)`. -/
structure MatchRow where
  id : Nat
  content : Str
  similarity : ℚ
deriving DecidableEq, Repr

/-- The SQL function `public.match_documents`: over a table of chunk rows and
a cosine-distance operator `dist`, keep the rows of the requested owner whose
similarity `1 - dist` strictly exceeds `match_threshold`, order by distance
ascending (mergesort models the `ORDER BY`; ties are broken by input order)
and keep the first `match_count` rows, projected to `(id, content, similarity)`. -/
def match_documents (dist : List ℚ → List ℚ → ℚ) (document_chunks : List DocumentChunk)
    (query_embedding : List ℚ) (custom_gpt_id : Nat) (match_threshold : ℚ)
    (match_count : Nat) : List MatchRow :=
  ((((document_chunks.filter (fun c =>
        c.custom_gpt_id == custom_gpt_id &&
        decide (1 - dist c.embedding query_embedding > match_threshold))).mergeSort
        (fun a b =>
          decide (dist a.embedding query_embedding ≤ dist b.embedding query_embedding))).take
        match_count).map
    (fun c => ⟨c.id, c.content, 1 - dist c.embedding query_embedding⟩))

/-- C1: `match_documents` returns at most `match_count` rows; every returned
row comes from a table row owned by the requested assistant, its similarity is
`1 - dist` of that row's embedding to the query and strictly exceeds the
threshold; and the returned rows are pairwise ordered by descending
similarity. -/
theorem match_documents_spec (dist : List ℚ → List ℚ → ℚ)
    (table : List DocumentChunk) (q : List ℚ) (gpt : Nat) (th : ℚ) (k : Nat) :
    (match_documents dist table q gpt th k).length ≤ k ∧
    (∀ r ∈ match_documents dist table q gpt th k,
      (∃ c ∈ table, c.custom_gpt_id = gpt ∧
        r = ⟨c.id, c.content, 1 - dist c.embedding q⟩) ∧ th < r.similarity) ∧
    (match_documents dist table q gpt th k).Pairwise
      (fun a b => b.similarity ≤ a.similarity) := by
  set le : DocumentChunk → DocumentChunk → Bool := fun a b =>
    decide (dist a.embedding q ≤ dist b.embedding q) with hle
  set flt : DocumentChunk → Bool := fun c =>
    c.custom_gpt_id == gpt && decide (1 - dist c.embedding q > th) with hflt
  have hmd : match_documents dist table q gpt th k =
      (((table.filter flt).mergeSort le).take k).map
        (fun c => ⟨c.id, c.content, 1 - dist c.embedding q⟩) := rfl
  refine ⟨?_, ?_, ?_⟩
  · rw [hmd, List.length_map]
    exact (List.length_take_le _ _)
  · intro r hr
    rw [hmd] at hr
    obtain ⟨c, hc, hrc⟩ := List.mem_map.mp hr
    have hcs : c ∈ (table.filter flt).mergeSort le :=
      (List.take_sublist _ _).mem hc
    have hcf : c ∈ table.filter flt := List.mem_mergeSort.mp hcs
    have hmem := List.mem_filter.mp hcf
    have hprops := hmem.2
    rw [hflt] at hprops
    simp only [Bool.and_eq_true, beq_iff_eq, decide_eq_true_eq] at hprops
    refine ⟨⟨c, hmem.1, hprops.1, hrc.symm⟩, ?_⟩
    rw [← hrc]
    exact hprops.2
  · rw [hmd]
    have htrans : ∀ a b c, le a b = true → le b c = true → le a c = true := by
      intro a b c hab hbc
      rw [hle] at *
      simp only [decide_eq_true_eq] at *
      exact le_trans hab hbc
    have htotal : ∀ a b, (le a b || le b a) = true := by
      intro a b
      rw [hle]
      simp only [Bool.or_eq_true, decide_eq_true_eq]
      exact le_total _ _
    have hsorted := List.sorted_mergeSort htrans htotal (table.filter flt)
    have htake : ((((table.filter flt)).mergeSort le).take k).Pairwise
        (fun a b => le a b = true) :=
      List.Pairwise.sublist (List.take_sublist _ _) hsorted
    refine List.pairwise_map.mpr (htake.imp ?_)
    intro a b hab
    rw [hle] at hab
    simp only [decide_eq_true_eq] at hab
    simpa using sub_le_sub_left hab 1

/-- A concrete cosine-distance stand-in used by witnesses: squared Euclidean
distance of the first coordinates (any concrete operator exercises the
filtering/ordering logic of `match_documents`). -/
def distW (a b : List ℚ) : ℚ := (a.headD 0 - b.headD 0) * (a.headD 0 - b.headD 0)

/-- A concrete three-row `document_chunks` table used by witnesses. -/
def tableW : List DocumentChunk :=
  [⟨1, 7, ['a'], [0]⟩, ⟨2, 7, ['b'], [2]⟩, ⟨3, 9, ['c'], [0]⟩]

/-- Witness for C1 at a concrete instance: owner 7, threshold 3/10, k = 5;
row `⟨1, ['a'], 1⟩` is returned and the theorem yields its ownership,
similarity and bound facts. -/
theorem match_documents_spec_witness :
    (∃ c ∈ tableW, c.custom_gpt_id = 7 ∧
      (⟨1, ['a'], 1⟩ : MatchRow) = ⟨c.id, c.content, 1 - distW c.embedding [0]⟩) ∧
    (3 : ℚ) / 10 < (⟨1, ['a'], 1⟩ : MatchRow).similarity :=
  (match_documents_spec distW tableW [0] 7 (3 / 10) 5).2.1 ⟨1, ['a'], 1⟩ (by
    norm_num [match_documents, tableW, distW, List.filter_cons,
      List.mergeSort_singleton])

/-! ## Retrieval assembler: `generate-response`
    (supabase/functions/generate-response/index.ts)

`serve` classifies the message with the keyword regex
`/\b(knowledge|document|file|statement|pdf|uploaded|reference)\b/i` (line 48)
and `searchKnowledgeBase` (lines 179–207) widens the similarity threshold to
0.1 and the result count to 8 for knowledge-directed queries, versus 0.3 and
5 otherwise, returning `[]` on any search failure. -/

/-- The alternatives of the knowledge-query keyword regex, lower-cased. -/
def knowledgeKeywords : List Str :=
  ["knowledge".toList, "document".toList, "file".toList, "statement".toList,
   "pdf".toList, "uploaded".toList, "reference".toList]

/-- Case-insensitive prefix test: `kw` is given lower-cased. -/
def ciStartsWith : Str → Str → Bool
  | _, [] => true
  | [], _ :: _ => false
  | c :: cs, k :: ks => lowerCh c = k && ciStartsWith cs ks

/-- One attempt of the word-bounded case-insensitive match of `kw` at the
current position: the previous character (if any) is not a word character,
`kw` matches case-insensitively, and the following character (if any) is not
a word character.  Each keyword consists of letters, so `\b` holds at its
ends exactly under these conditions. -/
def wordMatchHere (prev : Option Char) (s : Str) (kw : Str) : Bool :=
  (match prev with | none => true | some p => !isWordChar p) &&
  ciStartsWith s kw &&
  (match s.drop kw.length with | [] => true | n :: _ => !isWordChar n)

/-- Scan of `/\b(alt₁|…|altₙ)\b/i.test`: try every start position. -/
def wordAltScan (kws : List Str) : Option Char → Str → Bool
  | _, [] => false
  | prev, c :: rest =>
    kws.any (fun kw => wordMatchHere prev (c :: rest) kw) ||
    wordAltScan kws (some c) rest

/-- Line 48 of `generate-response`: the knowledge-directed classifier
`/\b(knowledge|document|file|statement|pdf|uploaded|reference)\b/i.test(message)`. -/
def isKnowledgeQuery (message : Str) : Bool :=
  wordAltScan knowledgeKeywords none message

/-- Outcome of the `supabase.rpc('match_documents', …)` call: the promise may
reject (caught by the surrounding `try`), resolve with a non-null `error`
field, or resolve with data rows. -/
inductive RpcOutcome where
  | thrown (e : String)
  | errField (e : String)
  | ok (rows : List MatchRow)
deriving Repr

/-- A similarity-search oracle: arguments are the `match_documents` RPC
parameters `(query_embedding, custom_gpt_id, match_threshold, match_count)`. -/
abbrev Rpc := List ℚ → Nat → ℚ → Nat → RpcOutcome

/-- Decimal rendering of `similarity * 100` with one fractional digit,
modelling `(chunk.similarity * 100).toFixed(1)`. -/
def toFixed1 (q : ℚ) : Str :=
  let n : ℤ := round (q * 10)
  (toString (n / 10)).toList ++ '.' :: (toString (n.natAbs % 10)).toList

/-- The result formatting of line 199:
`[Similarity: ${(chunk.similarity * 100).toFixed(1)}%] ${chunk.content}`. -/
def formatChunk (r : MatchRow) : Str :=
  '[' :: "Similarity: ".toList ++ toFixed1 (r.similarity * 100) ++ '%' :: ']' :: ' ' :: r.content

/-- `searchKnowledgeBase` (lines 179–207): pick threshold 0.1 and count 8 for
knowledge-directed queries, else 0.3 and 5; issue the RPC; on a thrown
exception or an error field return `[]`; otherwise format each row. -/
def searchKnowledgeBase (rpc : Rpc) (queryEmbedding : List ℚ) (customGptId : Nat)
    (isKnowledgeQuery : Bool) : List Str :=
  let threshold : ℚ := if isKnowledgeQuery then 1 / 10 else 3 / 10
  let count : Nat := if isKnowledgeQuery then 8 else 5
  match rpc queryEmbedding customGptId threshold count with
  | .thrown _ => []
  | .errField _ => []
  | .ok rows => rows.map formatChunk

/-- The search step of `serve` (lines 48–52): classify the message, then call
`searchKnowledgeBase` with the classification. -/
def serveSearch (rpc : Rpc) (queryEmbedding : List ℚ) (customGptId : Nat)
    (message : Str) : List Str :=
  searchKnowledgeBase rpc queryEmbedding customGptId (isKnowledgeQuery message)

/-- C6: a message matched by the keyword heuristic is searched with threshold
1/10 and count 8, every other message with threshold 3/10 and count 5: the
served search equals the RPC outcome consumed at exactly those parameters,
and the heuristic classifies a pdf-mentioning message as knowledge-directed
and a plain greeting as ordinary. -/
theorem serveSearch_params (rpc : Rpc) (qe : List ℚ) (gpt : Nat) (message : Str) :
    (serveSearch rpc qe gpt message =
      if isKnowledgeQuery message then
        (match rpc qe gpt (1 / 10) 8 with
          | .thrown _ => [] | .errField _ => [] | .ok rows => rows.map formatChunk)
      else
        (match rpc qe gpt (3 / 10) 5 with
          | .thrown _ => [] | .errField _ => [] | .ok rows => rows.map formatChunk)) ∧
    isKnowledgeQuery "What does the pdf say?".toList = true ∧
    isKnowledgeQuery "Good morning to you".toList = false := by
  refine ⟨?_, by decide, by decide⟩
  unfold serveSearch searchKnowledgeBase
  by_cases h : isKnowledgeQuery message
  · simp [h]
  · simp [h]

/-! ## Lifecycle manager: `reset-knowledge`
    (supabase/functions/reset-knowledge/index.ts, lines 18–97)

The handler collects the owner's `knowledge_base` rows, requests deletion of
their backing storage files (an error here is logged and deliberately not
rethrown, lines 54–58), then deletes the owner's `document_chunks` and
`knowledge_base` rows and reports the deleted counts. -/

/-- A row of the `knowledge_base` table, restricted to the columns the reset
handler touches. -/
structure KnowledgeBaseRow where
  id : Nat
  custom_gpt_id : Nat
  upload_path : Option Str
deriving DecidableEq, Repr

/-- The database state seen by `reset-knowledge`. -/
structure ResetDb where
  document_chunks : List DocumentChunk
  knowledge_base : List KnowledgeBaseRow
deriving Repr

/-- The JSON body of a `reset-knowledge` response. -/
structure ResetResponse where
  status : Nat
  success : Bool
  deletedChunks : Nat
  deletedKnowledgeBaseRows : Nat
  deletedStorageFiles : Nat
  error : Option String
deriving Repr

/-- The external effects of `reset-knowledge`: the storage `remove` call
(which may fail) and the three database statements (whose failure oracles
model `kbFetchErr`, `chunksErr` and `kbDelErr`). -/
structure ResetDeps where
  storageRemove : List Str → Except String (List Str)
  kbFetchErr : Option String
  chunksDelErr : Option String
  kbDelErr : Option String

/-- The `reset-knowledge` request handler: fetch the owner's knowledge-base
rows, extract their non-empty upload paths, ask storage to remove them —
logging but swallowing a storage error (lines 54–58) — then delete the
owner's chunk rows and knowledge-base rows, returning the deleted counts. -/
def resetKnowledgeServe (deps : ResetDeps) (db : ResetDb) (customGptId : Nat) :
    ResetResponse × ResetDb :=
  match deps.kbFetchErr with
  | some e => (⟨500, false, 0, 0, 0, some e⟩, db)
  | none =>
    let kbRows := db.knowledge_base.filter (fun r => r.custom_gpt_id == customGptId)
    let paths := kbRows.filterMap (fun r =>
      match r.upload_path with
      | none => none
      | some p => if p = [] then none else some p)
    let removedFiles : List Str :=
      if paths.length > 0 then
        match deps.storageRemove paths with
        | .error _ => []
        | .ok removed => removed
      else []
    match deps.chunksDelErr with
    | some e => (⟨500, false, 0, 0, 0, some e⟩, db)
    | none =>
      let deletedChunks := db.document_chunks.filter
        (fun c => c.custom_gpt_id == customGptId)
      let db₁ : ResetDb :=
        { db with document_chunks :=
            db.document_chunks.filter (fun c => !(c.custom_gpt_id == customGptId)) }
      match deps.kbDelErr with
      | some e => (⟨500, false, 0, 0, 0, some e⟩, db₁)
      | none =>
        let deletedKb := db₁.knowledge_base.filter
          (fun r => r.custom_gpt_id == customGptId)
        let db₂ : ResetDb :=
          { db₁ with knowledge_base :=
              db₁.knowledge_base.filter (fun r => !(r.custom_gpt_id == customGptId)) }
        (⟨200, true, deletedChunks.length, deletedKb.length, removedFiles.length,
          none⟩, db₂)

/-- C7: when the storage deletion fails but the database statements succeed,
the reset still succeeds: the response reports success with the counts of the
owner's chunk rows and knowledge-base rows, and the final database contains
no row of that owner in either table. -/
theorem resetKnowledgeServe_storage_failure (deps : ResetDeps) (db : ResetDb)
    (gpt : Nat) (e : String)
    (hfetch : deps.kbFetchErr = none) (hchunks : deps.chunksDelErr = none)
    (hkb : deps.kbDelErr = none)
    (hstorage : ∀ ps, deps.storageRemove ps = .error e) :
    let out := resetKnowledgeServe deps db gpt
    out.1.status = 200 ∧ out.1.success = true ∧ out.1.error = none ∧
    out.1.deletedChunks =
      (db.document_chunks.filter (fun c => c.custom_gpt_id == gpt)).length ∧
    out.1.deletedKnowledgeBaseRows =
      (db.knowledge_base.filter (fun r => r.custom_gpt_id == gpt)).length ∧
    out.1.deletedStorageFiles = 0 ∧
    (∀ c ∈ out.2.document_chunks, c.custom_gpt_id ≠ gpt) ∧
    (∀ r ∈ out.2.knowledge_base, r.custom_gpt_id ≠ gpt) := by
  intro out
  have hout : out = resetKnowledgeServe deps db gpt := rfl
  unfold resetKnowledgeServe at hout
  rw [hfetch, hchunks, hkb] at hout
  simp only at hout
  refine ⟨?_, ?_, ?_, ?_, ?_, ?_, ?_, ?_⟩ <;> rw [hout]
  · simp [hstorage]
  · intro c hc
    simp only [List.mem_filter, Bool.not_eq_true', beq_eq_false_iff_ne] at hc
    exact hc.2
  · intro r hr
    simp only [List.mem_filter, Bool.not_eq_true', beq_eq_false_iff_ne] at hr
    exact hr.2

/-- Concrete reset dependencies whose storage removal always fails. -/
def resetDepsW : ResetDeps :=
  ⟨fun _ => .error "storage down", none, none, none⟩

/-- Concrete database for the reset witness: owner 5 has two chunks and one
document, owner 6 has one chunk. -/
def resetDbW : ResetDb :=
  ⟨[⟨1, 5, ['x'], [0]⟩, ⟨2, 5, ['y'], [0]⟩, ⟨3, 6, ['z'], [0]⟩],
   [⟨10, 5, some "a.pdf".toList⟩]⟩

/-- Witness for C7: resetting owner 5 while storage is failing still reports
success with the database counts. -/
theorem resetKnowledgeServe_storage_failure_witness :
    let out := resetKnowledgeServe resetDepsW resetDbW 5
    out.1.status = 200 ∧ out.1.success = true ∧ out.1.error = none ∧
    out.1.deletedChunks =
      (resetDbW.document_chunks.filter (fun c => c.custom_gpt_id == 5)).length ∧
    out.1.deletedKnowledgeBaseRows =
      (resetDbW.knowledge_base.filter (fun r => r.custom_gpt_id == 5)).length ∧
    out.1.deletedStorageFiles = 0 ∧
    (∀ c ∈ out.2.document_chunks, c.custom_gpt_id ≠ 5) ∧
    (∀ r ∈ out.2.knowledge_base, r.custom_gpt_id ≠ 5) :=
  resetKnowledgeServe_storage_failure resetDepsW resetDbW 5 "storage down"
    rfl rfl rfl (fun _ => rfl)

/-! ## Chunker: `createMeaningfulChunks`
    (supabase/functions/process-pdf/index.ts, lines 595–678)

Ratios in the source are double-precision quotients compared against short
decimal literals; the embedding computes them with `mkRat`, which agrees with
the source on every count/length pair the pipeline can produce. -/

/-- `MAX_CHARS` of `createMeaningfulChunks` (line 597). -/
def MAX_CHARS : Nat := 1800

/-- `MIN_CHARS` of `createMeaningfulChunks` (line 598). -/
def MIN_CHARS : Nat := 200

/-- `s.lastIndexOf(' ', u)`: the greatest index `i ≤ u` with `s[i] = ' '`. -/
def lastSpaceLe (s : Str) (u : Nat) : Option Nat :=
  if s[u]? = some ' ' then some u
  else match u with
    | 0 => none
    | v + 1 => lastSpaceLe s v

/-- The cut point chosen by one round of the `splitByWords` loop
(lines 605–611): the tentative end `min (start + MAX_CHARS) s.length`,
replaced by the last space before it when that space lies past 60% of the
maximum width. -/
def splitCut (s : Str) (start : Nat) : Nat :=
  if min (start + MAX_CHARS) s.length < s.length then
    match lastSpaceLe s (min (start + MAX_CHARS) s.length - 1) with
    | some ls =>
      if ls > start + MAX_CHARS * 6 / 10 then ls
      else min (start + MAX_CHARS) s.length
    | none => min (start + MAX_CHARS) s.length
  else min (start + MAX_CHARS) s.length

theorem lastSpaceLe_le (s : Str) (u : Nat) : ∀ i, lastSpaceLe s u = some i → i ≤ u := by
  induction u with
  | zero =>
    intro i h
    unfold lastSpaceLe at h
    split at h
    · simp only [Option.some.injEq] at h
      omega
    · simp at h
  | succ v ih =>
    intro i h
    unfold lastSpaceLe at h
    split at h
    · simp only [Option.some.injEq] at h
      omega
    · exact le_trans (ih i h) (by omega)

theorem splitCut_gt (s : Str) (start : Nat) (h : start < s.length) :
    start < splitCut s start := by
  unfold splitCut
  have he : start + 1 ≤ min (start + MAX_CHARS) s.length := by
    simp only [MAX_CHARS]; omega
  split
  · split
    · split
      · simp only [MAX_CHARS] at *; omega
      · omega
    · omega
  · omega

theorem splitCut_le (s : Str) (start : Nat) :
    splitCut s start ≤ min (start + MAX_CHARS) s.length := by
  unfold splitCut
  split
  · rename_i hlt
    rcases hh : lastSpaceLe s (min (start + MAX_CHARS) s.length - 1) with _ | ls
    · simp
    · simp only
      have := lastSpaceLe_le s (min (start + MAX_CHARS) s.length - 1) ls hh
      split
      · omega
      · omega
  · omega

/-- The next loop start after a cut (lines 613–615): the cut itself, advanced
by one when the cut landed exactly on the tentative end short of the string's
end (the source's guard against an infinite loop on long space-free tokens). -/
def splitNext (s : Str) (start : Nat) : Nat :=
  if splitCut s start = min (start + MAX_CHARS) s.length ∧ splitCut s start < s.length
  then splitCut s start + 1 else splitCut s start

theorem splitNext_gt (s : Str) (start : Nat) (h : start < s.length) :
    start < splitNext s start := by
  have := splitCut_gt s start h
  unfold splitNext
  split <;> omega

/-- The inner `while` loop of `splitByWords` (lines 601–618): emit the
trimmed slice `[start, cut)` and continue from `splitNext`. -/
def splitByWordsGo (s : Str) (start : Nat) : List Str :=
  if h : start < s.length then
    jsTrim ((s.take (splitCut s start)).drop start) :: splitByWordsGo s (splitNext s start)
  else []
termination_by s.length - start
decreasing_by
  have := splitNext_gt s start h
  omega

/-- `splitByWords` (lines 601–618): run the loop from 0 and drop empty parts. -/
def splitByWords (s : Str) : List Str :=
  (splitByWordsGo s 0).filter (fun p => p.length > 0)

/-- Index of the last occurrence of `c` in `l`, if any. -/
def lastIdxOf (c : Char) (l : Str) : Option Nat :=
  (l.foldl (fun (st : Nat × Option Nat) ch =>
    (st.1 + 1, if ch = c then some st.1 else st.2)) (0, none)).2

/-- Split on `/\n\s*\n/` (line 623): a separator is a newline, followed by
greedy whitespace, ending at the last newline of that whitespace run. -/
def splitBlankLinesGo : Str → Str → List Str
  | acc, [] => [acc.reverse]
  | acc, '\n' :: rest =>
    let run := ('\n' :: rest).takeWhile jsWhitespace
    match lastIdxOf '\n' run with
    | some j =>
      if hj : j > 0 then
        acc.reverse :: splitBlankLinesGo [] (('\n' :: rest).drop (j + 1))
      else
        splitBlankLinesGo ('\n' :: acc) rest
    | none => splitBlankLinesGo ('\n' :: acc) rest
  | acc, c :: rest => splitBlankLinesGo (c :: acc) rest
termination_by _ l => l.length
decreasing_by
  all_goals simp only [List.length_drop, List.length_cons]
  all_goals omega

/-- The paragraph-accumulation loop of `createMeaningfulChunks`
(lines 625–643), over the pending buffer `current`: a paragraph longer than
`MAX_CHARS` flushes a buffer of at least `MIN_CHARS` and is word-split; a
paragraph that would overflow the buffer flushes it; otherwise the paragraph
is appended with a blank-line separator.  The final buffer is flushed if its
trimmed form is non-empty. -/
def accumulateParagraphs : List Str → Str → List Str
  | [], current => if jsTrim current = [] then [] else [jsTrim current]
  | p :: ps, current =>
    if p.length > MAX_CHARS then
      (if current.length ≥ MIN_CHARS then [jsTrim current] else []) ++
      splitByWords p ++
      accumulateParagraphs ps (if current.length ≥ MIN_CHARS then [] else current)
    else if (current ++ (if current = [] then [] else ['\n', '\n']) ++ p).length >
        MAX_CHARS then
      (if current = [] then [] else [jsTrim current]) ++ accumulateParagraphs ps p
    else
      accumulateParagraphs ps (current ++ (if current = [] then [] else ['\n', '\n']) ++ p)

/-- Split on `/[.!?]+/` (line 648): pieces between maximal runs of terminal
punctuation. -/
def splitSentencesGo : Str → Str → List Str
  | acc, [] => [acc.reverse]
  | acc, c :: rest =>
    if c = '.' || c = '!' || c = '?' then
      acc.reverse :: splitSentencesGo [] (rest.dropWhile (fun d => d = '.' || d = '!' || d = '?'))
    else
      splitSentencesGo (c :: acc) rest
termination_by _ l => l.length
decreasing_by
  · have := (List.dropWhile_sublist (l := rest)
      (p := fun d => d = '.' || d = '!' || d = '?')).length_le
    simp only [List.length_cons]
    omega
  · simp

/-- The sentence-accumulation loop of the fallback path (lines 649–661), over
the word-split pieces of the sentences in order: a piece that would overflow
the buffer (joined by `'. '`) flushes it, otherwise it is appended. -/
def accumulateSentences : List Str → Str → List Str
  | [], current => if jsTrim current = [] then [] else [jsTrim current]
  | piece :: ps, current =>
    if (current ++ (if current = [] then [] else ['.', ' ']) ++ piece).length >
        MAX_CHARS then
      (if current = [] then [] else [jsTrim current]) ++ accumulateSentences ps piece
    else
      accumulateSentences ps (current ++ (if current = [] then [] else ['.', ' ']) ++ piece)

/-- Whether `/[.!?]\s/` matches: terminal punctuation directly followed by
whitespace. -/
def hasSentencePunct : Str → Bool
  | [] => false
  | [_] => false
  | a :: b :: rest =>
    ((a = '.' || a = '!' || a = '?') && jsWhitespace b) || hasSentencePunct (b :: rest)

/-- The low-signal chunk filter of `createMeaningfulChunks` (lines 668–677):
keep a chunk only when its alphanumeric-and-whitespace reduction is longer
than 60 characters, the letter share of its non-space reduction is at least
0.5, the vowel share of its letters is at least 0.2, its digit share is
below 0.4, it contains a letter, and it shows sentence or line structure. -/
def chunkQuality (chunk : Str) : Bool :=
  let clean := chunk.filter (fun c => isAsciiLetter c || isDigitCh c || jsWhitespace c)
  let alphaChars := ((clean.filter (fun c => !jsWhitespace c)).filter isAsciiLetter).length
  let totalChars := max (clean.filter (fun c => !jsWhitespace c)).length 1
  let alphaRatio := mkRat alphaChars totalChars
  let vowelRatio := mkRat (chunk.filter isVowel).length
    (max (chunk.filter isAsciiLetter).length 1)
  let numericRatio := mkRat (chunk.filter isDigitCh).length (max chunk.length 1)
  decide (clean.length > 60) &&
  decide (alphaRatio ≥ mkRat 1 2) &&
  decide (vowelRatio ≥ mkRat 1 5) &&
  decide (numericRatio < mkRat 2 5) &&
  chunk.any isAsciiLetter &&
  (hasSentencePunct chunk || chunk.any (fun c => c = '\n'))

/-- `createMeaningfulChunks` (lines 595–678): paragraph accumulation, a
sentence-boundary fallback when it yields nothing, a final word-split clamp
of any residual oversize chunk, and the low-signal filter. -/
def createMeaningfulChunks (text : Str) : List Str :=
  let paragraphs := ((splitBlankLinesGo [] text).map jsTrim).filter (fun p => p ≠ [])
  let chunks := if paragraphs.length > 0 then accumulateParagraphs paragraphs [] else []
  let chunks₂ :=
    if chunks.length = 0 then
      let sentences := ((splitSentencesGo [] text).map jsTrim).filter (fun p => p ≠ [])
      let pieces := sentences.flatMap (fun s =>
        if s.length > MAX_CHARS then splitByWords s else [s])
      accumulateSentences pieces []
    else chunks
  let safe := chunks₂.flatMap (fun c =>
    if c.length > MAX_CHARS then splitByWords c else [c])
  safe.filter chunkQuality

theorem jsTrim_length_le (s : Str) : (jsTrim s).length ≤ s.length := by
  unfold jsTrim
  have h1 := (List.dropWhile_sublist (l := s) (p := jsWhitespace)).length_le
  have h2 := (List.dropWhile_sublist (l := (s.dropWhile jsWhitespace).reverse)
    (p := jsWhitespace)).length_le
  simp only [List.length_reverse] at *
  omega

theorem splitByWordsGo_le (s : Str) (start : Nat) :
    ∀ p ∈ splitByWordsGo s start, p.length ≤ MAX_CHARS := by
  induction start using splitByWordsGo.induct (s := s) with
  | case1 start h ih =>
    rw [splitByWordsGo]
    simp only [dif_pos h, List.mem_cons]
    rintro p (rfl | hp)
    · have hc := splitCut_le s start
      have ht := jsTrim_length_le ((s.take (splitCut s start)).drop start)
      simp only [List.length_drop, List.length_take] at ht
      omega
    · exact ih p hp
  | case2 start h =>
    rw [splitByWordsGo]
    simp [h]

theorem splitByWords_le (s : Str) : ∀ p ∈ splitByWords s, p.length ≤ MAX_CHARS := by
  intro p hp
  exact splitByWordsGo_le s 0 p (List.mem_filter.mp hp).1

/-- C3: every chunk emitted by `createMeaningfulChunks` — through paragraph
accumulation, the sentence fallback, the word-boundary split of overlong
paragraphs and the residual clamp — has length at most `MAX_CHARS = 1800`. -/
theorem createMeaningfulChunks_max (text : Str) :
    ∀ c ∈ createMeaningfulChunks text, c.length ≤ 1800 := by
  intro c hc
  unfold createMeaningfulChunks at hc
  have hsafe := (List.mem_filter.mp hc).1
  obtain ⟨b, _, hb⟩ := List.mem_flatMap.mp hsafe
  by_cases hlen : b.length > MAX_CHARS
  · rw [if_pos hlen] at hb
    have := splitByWords_le b c hb
    simpa [MAX_CHARS] using this
  · rw [if_neg hlen] at hb
    simp only [List.mem_singleton] at hb
    subst hb
    simp only [MAX_CHARS] at hlen
    omega

/-- Witness text for C3: two short prose paragraphs. -/
def chunkTextW : Str :=
  ("The quick brown fox jumps over the lazy dog near the quiet river. " ++
   "It waits there in the morning sun and watches the water move along. " ++
   "Every sentence here is ordinary readable prose with many vowels.").toList

unseal splitByWordsGo splitBlankLinesGo splitSentencesGo in
/-- Witness for C3: the concrete text produces a chunk, and the theorem bounds
its length. -/
theorem createMeaningfulChunks_max_witness :
    chunkTextW ∈ createMeaningfulChunks chunkTextW ∧ chunkTextW.length ≤ 1800 :=
  ⟨by decide, createMeaningfulChunks_max chunkTextW chunkTextW (by decide)⟩

/-! ## Byte-stream extractor: `extractCleanTextFromPDF`
    (supabase/functions/process-pdf/index.ts, lines 357–529)

The extractor decodes the document bytes with a non-fatal UTF-8 decoder and
scans the resulting string; the embedding works on that decoded string
directly.  `extractCleanTextFromPDF` tries, in order: the operator-stream
scan (`extractUncompressedText`), the pattern scan (`extractTextPatterns`)
and the domain-pattern scan (`extractPDFStrings`), each replacing the
previous result when it stayed under 100 characters.  There is no
decompression anywhere in the extractor.

The validation step the extractor would call afterwards
(`cleanAndValidateText`, line 382) is not modelled: its source writes two of
its replacement patterns as `/(?m)…/` literals (lines 550 and 558), and a
bare `(?m)` group is invalid in an ECMAScript pattern — an early
SyntaxError, so the module containing it cannot even be loaded and the
validator has no executable semantics.  Only the strategy-selection part of
the extractor (lines 365–379), which contains no such literal, is embedded
below. -/

/-- The `[0-9A-Fa-f]` regex class. -/
def isHexDigit (c : Char) : Bool :=
  isDigitCh c || ('A' ≤ c && c ≤ 'F') || ('a' ≤ c && c ≤ 'f')

/-- One pass of `.replace` for a two-character escape `\x`. -/
def replacePair (x : Char) (r : Char) : Nat → Str → Str
  | 0, l => l
  | _ + 1, [] => []
  | fuel + 1, c :: rest =>
    if c = '\\' && rest.head? = some x then r :: replacePair x r fuel rest.tail
    else c :: replacePair x r fuel rest

/-- JavaScript `parseInt(s, 8)`: the longest octal-digit prefix, `none` when
empty (`NaN`). -/
def parseIntBase8 (ds : Str) : Option Nat :=
  let pfx := ds.takeWhile (fun c => '0' ≤ c && c ≤ '7')
  if pfx = [] then none
  else some (pfx.foldl (fun n c => n * 8 + (c.toNat - 48)) 0)

/-- `String.fromCharCode` on a `parseInt` result: `NaN` gives the null
character, otherwise the code unit modulo 2^16. -/
def charFromCode : Option Nat → Char
  | none => '\x00'
  | some n => Char.ofNat (n % 65536)

/-- The octal-escape pass `.replace(/\\(\d{3})/g, …)` of line 503. -/
def octalPass : Nat → Str → Str
  | 0, l => l
  | _ + 1, [] => []
  | fuel + 1, c :: rest =>
    if c = '\\' then
      match rest with
      | d1 :: d2 :: d3 :: rem =>
        if isDigitCh d1 && isDigitCh d2 && isDigitCh d3 then
          charFromCode (parseIntBase8 [d1, d2, d3]) :: octalPass fuel rem
        else c :: octalPass fuel rest
      | _ => c :: octalPass fuel rest
    else c :: octalPass fuel rest

/-- `decodeTextString` (lines 492–504): the nine sequential replacement
passes for PDF string escapes, in source order. -/
def decodeTextString (t : Str) : Str :=
  let t1 := replacePair 'n' '\n' (t.length + 1) t
  let t2 := replacePair 'r' '\r' (t1.length + 1) t1
  let t3 := replacePair 't' '\t' (t2.length + 1) t2
  let t4 := replacePair 'b' '\x08' (t3.length + 1) t3
  let t5 := replacePair 'f' '\x0c' (t4.length + 1) t4
  let t6 := replacePair '(' '(' (t5.length + 1) t5
  let t7 := replacePair ')' ')' (t6.length + 1) t6
  let t8 := replacePair '\\' '\\' (t7.length + 1) t7
  octalPass (t8.length + 1) t8

/-- `parseInt(pair, 16)` on one or two hex digits. -/
def parseHexPair (p : Str) : Nat :=
  p.foldl (fun n c =>
    n * 16 + (if isDigitCh c then c.toNat - 48
      else if 'A' ≤ c && c ≤ 'F' then c.toNat - 55 else c.toNat - 87)) 0

/-- `hexToString` (lines 506–517): decode byte pairs, keeping printable
ASCII (32–126) only. -/
def hexToString : Nat → Str → Str
  | 0, _ => []
  | _ + 1, [] => []
  | fuel + 1, l =>
    let code := parseHexPair (l.take 2)
    (if 32 ≤ code && code ≤ 126 then [Char.ofNat code] else []) ++
      hexToString fuel (l.drop 2)

/-- `isReadableText` (lines 519–529): at least three characters, an
alphanumeric share above 0.4 and at least one letter. -/
def isReadableText (t : Str) : Bool :=
  3 ≤ t.length &&
  decide (mkRat (t.filter (fun c => isAsciiLetter c || isDigitCh c)).length
    t.length > mkRat 2 5) &&
  t.any isAsciiLetter

/-- Splits at the first occurrence of a literal: the part before it and the
part after it. -/
def splitAtLit (lit : Str) : Str → Option (Str × Str)
  | [] => none
  | c :: rest =>
    if lit.isPrefixOf (c :: rest) then some ([], (c :: rest).drop lit.length)
    else
      match splitAtLit lit rest with
      | some (b, a) => some (c :: b, a)
      | none => none

/-- The `BT…ET` blocks of `/BT\s*(.*?)\s*ET/gs` (line 400): for each `BT`,
the lazily shortest span to the next `ET`, with the surrounding whitespace
stripped by the greedy `\s*` on both sides of the group. -/
def btBlocks : Nat → Str → List Str
  | 0, _ => []
  | _ + 1, [] => []
  | fuel + 1, c :: rest =>
    if "BT".toList.isPrefixOf (c :: rest) then
      match splitAtLit "ET".toList ((c :: rest).drop 2) with
      | some (raw, after) => jsTrim raw :: btBlocks fuel after
      | none => []
    else btBlocks fuel rest

/-- Closing search for `/\((.*?)\)\s*[Tt]j/g`: the lazily nearest `)`
followed by whitespace and `Tj`/`tj`; returns the group and the rest after
the operator. -/
def tjClose : Nat → Str → Option (Str × Str)
  | 0, _ => none
  | _ + 1, [] => none
  | fuel + 1, c :: rest =>
    if c = ')' then
      let ws := rest.dropWhile jsWhitespace
      if (ws.head? = some 'T' || ws.head? = some 't') && ws[1]? = some 'j' then
        some ([], ws.drop 2)
      else
        match tjClose fuel rest with
        | some (inner, after) => some (c :: inner, after)
        | none => none
    else
      match tjClose fuel rest with
      | some (inner, after) => some (c :: inner, after)
      | none => none

/-- The `Tj` loop of lines 407–411: decode and collect every
`(…)[Tt]j`-matched group of a text block, each followed by a space. -/
def tjScan : Nat → Str → Str
  | 0, _ => []
  | _ + 1, [] => []
  | fuel + 1, c :: rest =>
    if c = '(' then
      match tjClose (rest.length + 1) rest with
      | some (inner, after) =>
        decodeTextString inner ++ ' ' :: tjScan fuel after
      | none => tjScan fuel rest
    else tjScan fuel rest

/-- Closing search for `/\[(.*?)\]\s*TJ/g`: the lazily nearest `]` followed
by whitespace and `TJ`. -/
def tjArrClose : Nat → Str → Option (Str × Str)
  | 0, _ => none
  | _ + 1, [] => none
  | fuel + 1, c :: rest =>
    if c = ']' then
      let ws := rest.dropWhile jsWhitespace
      if ws.head? = some 'T' && ws[1]? = some 'J' then
        some ([], ws.drop 2)
      else
        match tjArrClose fuel rest with
        | some (inner, after) => some (c :: inner, after)
        | none => none
    else
      match tjArrClose fuel rest with
      | some (inner, after) => some (c :: inner, after)
      | none => none

/-- All groups of `/\((.*?)\)/g`: each `(` paired with the lazily nearest
`)`. -/
def parenGroups : Nat → Str → List Str
  | 0, _ => []
  | _ + 1, [] => []
  | fuel + 1, c :: rest =>
    if c = '(' then
      match splitAtLit [')'] rest with
      | some (inner, after) => inner :: parenGroups fuel after
      | none => []
    else parenGroups fuel rest

/-- The `TJ` loop of lines 414–424: for every `[…]TJ`-matched array, decode
and collect each parenthesised element, each followed by a space. -/
def tjArrScan : Nat → Str → Str
  | 0, _ => []
  | _ + 1, [] => []
  | fuel + 1, c :: rest =>
    if c = '[' then
      match tjArrClose (rest.length + 1) rest with
      | some (inner, after) =>
        ((parenGroups (inner.length + 1) inner).map
          (fun g => decodeTextString g ++ [' '])).flatten ++ tjArrScan fuel after
      | none => tjArrScan fuel rest
    else tjArrScan fuel rest

/-- `extractUncompressedText` (lines 393–428): within every `BT…ET` block,
collect the text of the `Tj` operators and then of the `TJ` arrays. -/
def extractUncompressedText (content : Str) : Str :=
  ((btBlocks (content.length + 1) content).map
    (fun b => tjScan (b.length + 1) b ++ tjArrScan (b.length + 1) b)).flatten

/-- The parenthesis loop of `extractTextPatterns` (lines 436–445):
`/\(([^)]{3,})\)/g`, keeping decoded strings that pass `isReadableText`. -/
def parenReadableScan : Nat → Str → Str
  | 0, _ => []
  | _ + 1, [] => []
  | fuel + 1, c :: rest =>
    if c = '(' then
      let run := rest.takeWhile (fun d => d ≠ ')')
      if run.length ≥ 3 && rest[run.length]? = some ')' then
        (let d := decodeTextString run
         if isReadableText d then d ++ [' '] else []) ++
          parenReadableScan fuel (rest.drop (run.length + 1))
      else parenReadableScan fuel rest
    else parenReadableScan fuel rest

/-- The hex loop of `extractTextPatterns` (lines 447–459):
`/<([0-9A-Fa-f]{6,})>/g`, keeping decoded strings that pass
`isReadableText`. -/
def hexReadableScan : Nat → Str → Str
  | 0, _ => []
  | _ + 1, [] => []
  | fuel + 1, c :: rest =>
    if c = '<' then
      let run := rest.takeWhile isHexDigit
      if run.length ≥ 6 && rest[run.length]? = some '>' then
        (let d := hexToString (run.length + 1) run
         if isReadableText d then d ++ [' '] else []) ++
          hexReadableScan fuel (rest.drop (run.length + 1))
      else hexReadableScan fuel rest
    else hexReadableScan fuel rest

/-- `extractTextPatterns` (lines 430–462): the parenthesis scan followed by
the hex scan over the whole content. -/
def extractTextPatterns (content : Str) : Str :=
  parenReadableScan (content.length + 1) content ++
    hexReadableScan (content.length + 1) content

/-- Exactly `n` characters of class `p`: the matched run and the rest. -/
def takeCount (p : Char → Bool) : Nat → Str → Option (Str × Str)
  | 0, l => some ([], l)
  | _ + 1, [] => none
  | n + 1, c :: rest =>
    if p c then (takeCount p n rest).map (fun ar => (c :: ar.1, ar.2)) else none

/-- A `[\s-]` separator. -/
def sepAt (l : Str) : Option (Char × Str) :=
  match l with
  | c :: rest => if jsWhitespace c || c = '-' then some (c, rest) else none
  | [] => none

/-- Whether `\b` holds after a match ending in a word character: the next
character is absent or not a word character. -/
def trailingBoundary (l : Str) : Bool :=
  match l.head? with | none => true | some n => !isWordChar n

/-- Head match of `/\b\d{4}[\s-]\d{4}[\s-]\d{4}[\s-]\d{4}\b/` (line 473),
leading boundary checked by the caller. -/
def p1At (l : Str) : Option (Str × Str) := do
  let (d1, r1) ← takeCount isDigitCh 4 l
  let (s1, r2) ← sepAt r1
  let (d2, r3) ← takeCount isDigitCh 4 r2
  let (s2, r4) ← sepAt r3
  let (d3, r5) ← takeCount isDigitCh 4 r4
  let (s3, r6) ← sepAt r5
  let (d4, r7) ← takeCount isDigitCh 4 r6
  if trailingBoundary r7 then
    some (d1 ++ s1 :: d2 ++ s2 :: d3 ++ s3 :: d4, r7)
  else none

/-- Head match of `/\$\d+\.\d{2}/` (line 474). -/
def p2At (l : Str) : Option (Str × Str) :=
  match l with
  | '$' :: rest =>
    let ds := rest.takeWhile isDigitCh
    if ds.length > 0 then
      match rest.drop ds.length with
      | '.' :: r2 =>
        (takeCount isDigitCh 2 r2).map (fun dd => ('$' :: ds ++ '.' :: dd.1, dd.2))
      | _ => none
    else none
  | _ => none

/-- Greedy `\d{1,2}` followed by a required slash. -/
def dayPart (l : Str) : Option (Str × Str) :=
  let ds := l.takeWhile isDigitCh
  if ds.length = 1 || ds.length = 2 then
    match l.drop ds.length with
    | '/' :: rest => some (ds ++ ['/'], rest)
    | _ => none
  else none

/-- Head match of `/\b\d{1,2}\/\d{1,2}\/\d{4}\b/` (line 475). -/
def p3At (l : Str) : Option (Str × Str) := do
  let (a, r1) ← dayPart l
  let (b, r2) ← dayPart r1
  let (y, r3) ← takeCount isDigitCh 4 r2
  if trailingBoundary r3 then some (a ++ b ++ y, r3) else none

/-- The keyword alternatives of line 477, lower-cased, in source order. -/
def financialKeywords : List Str :=
  ["mbna".toList, "payment".toList, "balance".toList, "transaction".toList,
   "credit".toList, "debit".toList, "account".toList, "statement".toList,
   "due".toList, "date".toList, "amount".toList, "interest".toList]

/-- Head match of the case-insensitive keyword alternation of line 477,
returning the original-case matched text. -/
def p4At (l : Str) : Option (Str × Str) :=
  (financialKeywords.filterMap (fun kw =>
    if ciStartsWith l kw && trailingBoundary (l.drop kw.length) then
      some (l.take kw.length, l.drop kw.length)
    else none)).head?

/-- An optional `[-.]` separator. -/
def sep5At (l : Str) : Str × Str :=
  match l with
  | c :: rest => if c = '-' || c = '.' then ([c], rest) else ([], l)
  | [] => ([], l)

/-- Head match of `/\b\d{3}[-.]?\d{3}[-.]?\d{4}\b/` (line 479). -/
def p5At (l : Str) : Option (Str × Str) := do
  let (d1, r1) ← takeCount isDigitCh 3 l
  let (s1, r2) := sep5At r1
  let (d2, r3) ← takeCount isDigitCh 3 r2
  let (s2, r4) := sep5At r3
  let (d3, r5) ← takeCount isDigitCh 4 r4
  if trailingBoundary r5 then some (d1 ++ s1 ++ d2 ++ s2 ++ d3, r5) else none

/-- A global extraction scan collecting `match[0] + ' '` for each match of a
head matcher, tracking the previous character for patterns that open with a
word boundary. -/
def boundedScan (needsB : Bool) (tryAt : Str → Option (Str × Str)) :
    Nat → Option Char → Str → Str
  | 0, _, _ => []
  | _ + 1, _, [] => []
  | fuel + 1, prev, c :: rest =>
    let bOK := !needsB || (match prev with | none => true | some p => !isWordChar p)
    match (if bOK then tryAt (c :: rest) else none) with
    | some (m, after) => m ++ ' ' :: boundedScan needsB tryAt fuel m.getLast? after
    | none => boundedScan needsB tryAt fuel (some c) rest

/-- `extractPDFStrings` (lines 464–490): the five domain-pattern scans run in
order, each appending its matches. -/
def extractPDFStrings (content : Str) : Str :=
  boundedScan true p1At (content.length + 1) none content ++
  boundedScan false p2At (content.length + 1) none content ++
  boundedScan true p3At (content.length + 1) none content ++
  boundedScan true p4At (content.length + 1) none content ++
  boundedScan true p5At (content.length + 1) none content

/-- The strategy selection of `extractCleanTextFromPDF` (lines 365–379):
the operator-stream scan, replaced by the pattern scan and then by the
domain-pattern scan while the result stays under 100 characters.  This is
the entire candidate text the extractor ever produces — the later
`cleanAndValidateText` call only accepts or rejects it (and, as noted above,
its invalid `(?m)` regex literals keep the real module from loading at
all). -/
def extractStrategies (content : Str) : Str :=
  let t1 := extractUncompressedText content
  let t2 := if t1.length < 100 then extractTextPatterns content else t1
  if t2.length < 100 then extractPDFStrings content else t2

/-- A PDF whose only textual content lives in a deflate-compressed stream:
the non-fatally UTF-8-decoded bytes of
`%PDF-1.4 … << /Filter /FlateDecode /Length 67 >> stream … endstream endobj`
where the stream holds `zlib.compress` of
`BT (Hello from the compressed stream of this document) Tj ET`. -/
def compressedPdfW : Str :=
  ("%PDF-1.4\n2 0 obj\n<< /Filter /FlateDecode /Length 67 >>\nstream\nx�s\nQ��H���WH+��U(�HUH��-(J-.NMQ(.)JM�U�O\x03Jd\x16+��\x27���h*�d)��\x00\x00��\x15\x15\nendstream\nendobj\n%%EOF\n").toList

/-- The decompressed content of the stream of `compressedPdfW`. -/
def decompressedStreamW : Str :=
  "BT (Hello from the compressed stream of this document) Tj ET".toList

/-- C2 counterexample: on the deflate-only document the extractor's three
strategies produce no candidate text at all — the operator-stream scan finds
no `BT…ET` block in the raw bytes, the pattern scan's sole parenthesised
hit stays under 100 characters so it is replaced by the domain-pattern scan,
which matches nothing.  Since validation only accepts or rejects this
candidate text and never adds to it, the extractor cannot recover the
embedded sentence: there is no compressed-stream strategy. -/
theorem extractStrategies_compressed_empty :
    extractStrategies compressedPdfW = [] := by decide

/-- C2 amended: the extractor has only the operator-stream, pattern and
domain-pattern strategies, none of which locates or inflates a
deflate-compressed stream; its whole candidate text on the deflate-only
document is empty, although the operator-stream scan applied to the
decompressed stream bytes recovers the embedded sentence. -/
theorem extractStrategies_no_decompression :
    extractStrategies compressedPdfW = [] ∧
    extractUncompressedText decompressedStreamW =
      "Hello from the compressed stream of this document ".toList := by
  constructor
  · decide
  · decide

/-! ## Answer generation: `generate-response` `serve`
    (supabase/functions/generate-response/index.ts, lines 28–154) -/

/-- External effects of `generate-response`: the API-key check, the query
embedding, the `match_documents` RPC, the knowledge-base file listing
(`data` possibly null, its error field ignored by the source) and the chat
completion on the assembled system message. -/
structure GenDeps where
  apiKeyPresent : Bool
  embed : Except String (List ℚ)
  rpc : Rpc
  kbFiles : Option (List Str)
  openai : Str → Except String Str

/-- The JSON body and status of a `generate-response` response. -/
structure GenResponse where
  status : Nat
  success : Bool
  content : Option Str
  usedKnowledgeBase : Option Bool
  error : Option String
deriving DecidableEq, Repr

/-- The system-message assembly of lines 56–95: the assistant instructions,
the knowledge-search note for knowledge-directed queries, and either the
retrieved chunks, a no-relevant-content warning with the file list, or a
fallback note naming the uploaded files.  The per-file size/date/status
annotations of lines 74–79 are host-locale formatting and are abbreviated to
the file names. -/
def buildSystemMessage (instructions : Str) (isKq : Bool)
    (relevantContent : List Str) (kbFiles : Option (List Str)) : Str :=
  let base := instructions ++
    (if isKq then
      ("\n\n🔍 KNOWLEDGE BASE SEARCH PERFORMED: " ++
       "I searched your uploaded documents for relevant information.").toList
    else [])
  if relevantContent.length > 0 then
    base ++ "\n\nRelevant information from your knowledge base:\n".toList ++
      (relevantContent.intersperse "\n\n".toList).flatten
  else
    match kbFiles with
    | some (f :: fs) =>
      if isKq then
        base ++ ("\n\n⚠️ NO RELEVANT CONTENT FOUND: I searched your uploaded " ++
          "documents but could not find text that matches your query.\n\n" ++
          "Your uploaded files:\n").toList ++
          (((f :: fs).map (fun n => "• ".toList ++ n)).intersperse
            ['\n']).flatten
      else
        base ++ "\n\nNote: Uploaded documents available: ".toList ++
          (((f :: fs)).intersperse ", ".toList).flatten ++
          (". If the user's question refers to these files, acknowledge " ++
           "their presence and offer to search them.").toList
    | _ => base

/-- The `generate-response` request handler (lines 28–154): check the API
key, embed the query, classify it, search the knowledge base, assemble the
system message and call the chat completion; a thrown error anywhere yields
a 500 response, and a successful completion reports whether knowledge-base
content was used. -/
def generateResponseServe (deps : GenDeps) (message : Str)
    (gptInstructions : Str) (customGptId : Nat) : GenResponse :=
  if !deps.apiKeyPresent then
    ⟨500, false, none, none, some "OpenAI API key not configured"⟩
  else
    match deps.embed with
    | .error e => ⟨500, false, none, none, some e⟩
    | .ok queryEmbedding =>
      let isKq := isKnowledgeQuery message
      let relevantContent := searchKnowledgeBase deps.rpc queryEmbedding customGptId isKq
      let systemMessage := buildSystemMessage gptInstructions isKq relevantContent
        (if relevantContent.length > 0 then none else deps.kbFiles)
      match deps.openai systemMessage with
      | .error e => ⟨500, false, none, none, some e⟩
      | .ok assistantMessage =>
        ⟨200, true, some assistantMessage,
          some (decide (relevantContent.length > 0)), none⟩

/-- Whether an RPC outcome is a failure (a thrown exception or an error
field). -/
def RpcOutcome.isFailure : RpcOutcome → Bool
  | .thrown _ => true
  | .errField _ => true
  | .ok _ => false

/-- C10: when the similarity-search RPC fails (throws or reports an error),
`searchKnowledgeBase` returns the empty list, and the request still
completes as a success with `usedKnowledgeBase = false` — the retrieval
failure is never surfaced to the caller. -/
theorem generateResponseServe_search_failure (deps : GenDeps) (message : Str)
    (instructions : Str) (gpt : Nat) (qe : List ℚ) (ans : Str)
    (hkey : deps.apiKeyPresent = true)
    (hembed : deps.embed = .ok qe)
    (hrpc : ∀ th cnt, (deps.rpc qe gpt th cnt).isFailure = true)
    (hopenai : ∀ m, deps.openai m = .ok ans) :
    searchKnowledgeBase deps.rpc qe gpt (isKnowledgeQuery message) = [] ∧
    generateResponseServe deps message instructions gpt =
      ⟨200, true, some ans, some false, none⟩ := by
  have hsearch : ∀ kq, searchKnowledgeBase deps.rpc qe gpt kq = [] := by
    intro kq
    unfold searchKnowledgeBase
    dsimp only
    have := hrpc (if kq then 1 / 10 else 3 / 10) (if kq then 8 else 5)
    rcases h : deps.rpc qe gpt (if kq then 1 / 10 else 3 / 10) (if kq then 8 else 5)
      with e | e | rows
    · rfl
    · rfl
    · rw [h] at this
      exact absurd this (by simp [RpcOutcome.isFailure])
  refine ⟨hsearch _, ?_⟩
  unfold generateResponseServe
  rw [hkey]
  dsimp only
  rw [hembed]
  dsimp only
  rw [hsearch, hopenai]
  simp

/-- Concrete dependencies for the C10 witness: the RPC always throws while
everything else succeeds. -/
def genDepsFailW : GenDeps :=
  ⟨true, .ok [0], fun _ _ _ _ => .thrown "fetch failed",
   some ["notes.pdf".toList],
   fun _ => .ok "I could not reach your documents just now.".toList⟩

/-- Witness for C10: with a throwing RPC the search yields the empty list
and the request still succeeds without knowledge-base grounding. -/
theorem generateResponseServe_search_failure_witness :
    searchKnowledgeBase genDepsFailW.rpc [0] 7
      (isKnowledgeQuery "tell me about the pdf".toList) = [] ∧
    generateResponseServe genDepsFailW "tell me about the pdf".toList
      "You are a helpful assistant.".toList 7 =
      ⟨200, true, some "I could not reach your documents just now.".toList,
        some false, none⟩ :=
  generateResponseServe_search_failure genDepsFailW
    "tell me about the pdf".toList "You are a helpful assistant.".toList 7 [0]
    "I could not reach your documents just now.".toList
    rfl rfl (fun _ _ => rfl) (fun _ => rfl)
